import Mathlib

/-!
Verification development for the PostgreSQL storage backend of aw-core
(`aw_datastore/storages/postgresql.py`).

The backend is shallowly embedded: the database (tables `buckets` and
`events`, the BIGSERIAL sequences, and the in-process bucket-id cache)
becomes an explicit `DB` state, and each storage method becomes a pure
function `DB → ... → DB × Except Err α`.  The connection runs in
autocommit mode, so a Python exception leaves all SQL already executed
in place; returning the post-state next to the `Except` result models
that.

Timestamps are embedded at microsecond-integer resolution: a Python
`datetime` has microsecond precision, so `int(dt.timestamp() * 1_000_000)`
recovers exactly the microsecond count of the instant (idealizing the
intermediate float as exact), and a `timedelta` likewise is an integer
number of microseconds.  Payloads are stored as serialized text, exactly
as the TEXT columns do; `json.dumps` / `json.loads` are embedded by a
concrete printer and parser for the JSON fragment the backend exchanges
(null, booleans, integers, escape-free strings, arrays, objects).
-/

/-- JSON values, as stored in the `datastr` TEXT columns.  Numbers are
restricted to integers and strings are escape-free; this is the fragment
the development exercises. -/
inductive Json where
  | null : Json
  | bool (b : Bool) : Json
  | num (n : Int) : Json
  | str (s : String) : Json
  | arr (xs : List Json) : Json
  | obj (fields : List (String × Json)) : Json

mutual

/-- Model of Python `json.dumps` (default separators) on the fragment. -/
def json_dumps : Json → String
  | .null => "null"
  | .bool true => "true"
  | .bool false => "false"
  | .num n => toString n
  | .str s => "\"" ++ s ++ "\""
  | .arr xs => "[" ++ dumpsList xs ++ "]"
  | .obj fs => "\x7b" ++ dumpsFields fs ++ "\x7d"

/-- Comma-joined rendering of array elements. -/
def dumpsList : List Json → String
  | [] => ""
  | [x] => json_dumps x
  | x :: y :: xs => json_dumps x ++ ", " ++ dumpsList (y :: xs)

/-- Comma-joined rendering of object fields. -/
def dumpsFields : List (String × Json) → String
  | [] => ""
  | [(k, v)] => "\"" ++ k ++ "\": " ++ json_dumps v
  | (k, v) :: y :: xs => "\"" ++ k ++ "\": " ++ json_dumps v ++ ", " ++ dumpsFields (y :: xs)

end

/-- Whitespace skipping, as the tokenizer of `json.loads` does. -/
def skipWs : List Char → List Char
  | c :: cs => if c = ' ' ∨ c = '\t' ∨ c = '\n' ∨ c = '\r' then skipWs cs else c :: cs
  | [] => []

/-- Characters of a string literal after the opening quote; escape
sequences are rejected (outside the fragment). -/
def parseStringChars : List Char → Option (List Char × List Char)
  | '"' :: cs => some ([], cs)
  | '\\' :: _ => none
  | c :: cs =>
    match parseStringChars cs with
    | some (s, rest) => some (c :: s, rest)
    | none => none
  | [] => none

/-- Longest digit prefix. -/
def takeDigits : List Char → List Char × List Char
  | c :: cs =>
    if c.isDigit then
      match takeDigits cs with
      | (d, r) => (c :: d, r)
    else ([], c :: cs)
  | [] => ([], [])

/-- Digits to a natural number. -/
def digitsToNat (ds : List Char) : Nat :=
  ds.foldl (fun a c => a * 10 + (c.toNat - 48)) 0

/-- Integer literals; a following fraction or exponent marker means the
number is outside the integer fragment and the parse fails. -/
def parseNum : List Char → Option (Json × List Char)
  | '-' :: cs =>
    match takeDigits cs with
    | ([], _) => none
    | (ds, r) =>
      match r with
      | '.' :: _ => none
      | 'e' :: _ => none
      | 'E' :: _ => none
      | _ => some (.num (-(digitsToNat ds : Int)), r)
  | cs =>
    match takeDigits cs with
    | ([], _) => none
    | (ds, r) =>
      match r with
      | '.' :: _ => none
      | 'e' :: _ => none
      | 'E' :: _ => none
      | _ => some (.num (digitsToNat ds : Int), r)

mutual

/-- Recursive-descent value parser, fueled for termination. -/
def parseValue : Nat → List Char → Option (Json × List Char)
  | 0, _ => none
  | fuel + 1, cs =>
    match skipWs cs with
    | 'n' :: 'u' :: 'l' :: 'l' :: rest => some (.null, rest)
    | 't' :: 'r' :: 'u' :: 'e' :: rest => some (.bool true, rest)
    | 'f' :: 'a' :: 'l' :: 's' :: 'e' :: rest => some (.bool false, rest)
    | '"' :: rest =>
      match parseStringChars rest with
      | some (s, r) => some (.str (String.mk s), r)
      | none => none
    | '[' :: rest =>
      match skipWs rest with
      | ']' :: r => some (.arr [], r)
      | r => match parseArrayItems fuel r with
             | some (vs, r2) => some (.arr vs, r2)
             | none => none
    | '\x7b' :: rest =>
      match skipWs rest with
      | '\x7d' :: r => some (.obj [], r)
      | r => match parseObjItems fuel r with
             | some (fs, r2) => some (.obj fs, r2)
             | none => none
    | rest => parseNum rest

/-- One-or-more comma-separated array items, up to the closing bracket. -/
def parseArrayItems : Nat → List Char → Option (List Json × List Char)
  | 0, _ => none
  | fuel + 1, cs =>
    match parseValue fuel cs with
    | none => none
    | some (v, rest) =>
      match skipWs rest with
      | ',' :: rest2 =>
        match parseArrayItems fuel rest2 with
        | some (vs, r) => some (v :: vs, r)
        | none => none
      | ']' :: rest2 => some ([v], rest2)
      | _ => none

/-- One-or-more comma-separated `"key": value` object members, up to the
closing brace. -/
def parseObjItems : Nat → List Char → Option (List (String × Json) × List Char)
  | 0, _ => none
  | fuel + 1, cs =>
    match skipWs cs with
    | '"' :: rest =>
      match parseStringChars rest with
      | none => none
      | some (k, rest1) =>
        match skipWs rest1 with
        | ':' :: rest2 =>
          match parseValue fuel rest2 with
          | none => none
          | some (v, rest3) =>
            match skipWs rest3 with
            | ',' :: rest4 =>
              match parseObjItems fuel rest4 with
              | some (fs, r) => some ((String.mk k, v) :: fs, r)
              | none => none
            | '\x7d' :: rest4 => some ([(String.mk k, v)], rest4)
            | _ => none
        | _ => none
    | _ => none

end

/-- Model of Python `json.loads` on the fragment: parse one value and
require only whitespace to remain; `none` models the raised
`json.JSONDecodeError`. -/
def json_loads (s : String) : Option Json :=
  match parseValue (s.length + 1) s.data with
  | some (v, rest) => if (skipWs rest).isEmpty then some v else none
  | none => none

example : json_loads ("\x7b\x7d") = some (Json.obj []) := by rfl
example : json_loads ("x") = none := by rfl
example : json_loads ("\x7b\"a\": 1\x7d") = some (Json.obj [("a", Json.num 1)]) := by rfl
example : json_loads (json_dumps (Json.obj [("a", Json.arr [Json.num (-2), Json.null])]))
    = some (Json.obj [("a", Json.arr [Json.num (-2), Json.null])]) := by rfl

/-- Error signals a storage call can raise.  The Python code raises
`ValueError` with distinct messages for a missing bucket and for an
update with no fields, and `json.loads` raises `json.JSONDecodeError`;
the constructors keep those three conditions apart. -/
inductive Err where
  | notFound : Err
  | invalidArgument : Err
  | jsonDecode : Err
deriving Repr, DecidableEq

/-- Row of the `buckets` table (`rowid BIGSERIAL PRIMARY KEY, id TEXT
UNIQUE NOT NULL, name TEXT, type TEXT, client TEXT, hostname TEXT,
created TEXT, datastr TEXT`). -/
structure BucketRow where
  rowid : Nat
  id : String
  name : Option String
  type_ : String
  client : String
  hostname : String
  created : String
  datastr : String
deriving Repr, DecidableEq

/-- Row of the `events` table (`id BIGSERIAL PRIMARY KEY, bucketrow
BIGINT REFERENCES buckets(rowid) ON DELETE CASCADE, starttime BIGINT,
endtime BIGINT, datastr TEXT`). -/
structure EventRow where
  id : Nat
  bucketrow : Nat
  starttime : Int
  endtime : Int
  datastr : String
deriving Repr, DecidableEq

/-- State of one `PostgresqlStorage` instance: the two tables, the two
BIGSERIAL sequences, and the in-process `_bucket_cache` mapping bucket
id to rowid (an association list standing for the Python dict). -/
structure DB where
  buckets : List BucketRow
  events : List EventRow
  nextBucketRowid : Nat
  nextEventId : Nat
  bucketCache : List (String × Nat)
deriving Repr, DecidableEq

/-- A timezone-aware Python `datetime`, reduced to what the backend
reads off it: the instant as integer microseconds since the epoch, and
the attached utcoffset (microseconds).  Aware datetimes compare and
subtract by instant; the offset only tags the representation. -/
structure DateTime where
  us : Int
  offsetUs : Int
deriving Repr, DecidableEq

/-- A Python `timedelta`, which has microsecond resolution. -/
structure Duration where
  us : Int
deriving Repr, DecidableEq

/-- Model of `_to_us`, i.e. `int(dt.timestamp() * 1_000_000)`: on a
microsecond-resolution datetime the truncation recovers exactly the
microsecond count of the instant, whatever the timezone offset. -/
def to_us (dt : DateTime) : Int := dt.us

/-- Model of `datetime.fromtimestamp(i / 1_000_000, tz=timezone.utc)`:
the same instant, UTC-normalized (offset 0). -/
def us_to_dt (i : Int) : DateTime := ⟨i, 0⟩

/-- `datetime + timedelta` keeps the tzinfo and shifts the instant. -/
def dtAdd (dt : DateTime) (d : Duration) : DateTime := ⟨dt.us + d.us, dt.offsetUs⟩

/-- `datetime - datetime` on aware values is the instant difference. -/
def dtSub (a b : DateTime) : Duration := ⟨a.us - b.us⟩

/-- An `aw_core.models.Event`: optional storage-assigned id, timestamp,
duration, and JSON payload. -/
structure Event where
  id : Option Nat
  timestamp : DateTime
  duration : Duration
  data : Json

/-- Bucket metadata as returned by `buckets()` / `get_metadata`. -/
structure Metadata where
  id : String
  name : Option String
  type_ : String
  client : String
  hostname : String
  created : String
  data : Json

/-- Parity with the sqlite backend: default upper bound of a query. -/
def MAX_TIMESTAMP : Int := 2 ^ 63 - 1

/-- First value stored under a key in the cache dict. -/
def lookupAssoc : List (String × Nat) → String → Option Nat
  | [], _ => none
  | (k, v) :: rest, key => if k = key then some v else lookupAssoc rest key

/-- `self._bucket_cache.pop(bucket_id, None)`: drop the entry. -/
def removeKey (l : List (String × Nat)) (key : String) : List (String × Nat) :=
  l.filter (fun kv => decide (kv.1 ≠ key))

/-- `_bucket_rowid`: cached value if present; otherwise one SELECT on
the buckets table, populating the cache, raising `ValueError` (not
found) when no row matches. -/
def bucket_rowid (db : DB) (bucket_id : String) : DB × Except Err Nat :=
  match lookupAssoc db.bucketCache bucket_id with
  | some rid => (db, .ok rid)
  | none =>
    match db.buckets.find? (fun r => decide (r.id = bucket_id)) with
    | none => (db, .error .notFound)
    | some r =>
      ({ db with bucketCache := (bucket_id, r.rowid) :: db.bucketCache }, .ok r.rowid)

/-- Decoding of one buckets-table row into metadata:
`json.loads(r[6] or "\x7b\x7d")` falls back to the empty object only
when the payload is absent (empty); a malformed non-empty payload makes
`json.loads` raise. -/
def rowToMetadata (r : BucketRow) : Except Err Metadata :=
  match json_loads (if r.datastr = "" then "\x7b\x7d" else r.datastr) with
  | none => .error .jsonDecode
  | some j => .ok ⟨r.id, r.name, r.type_, r.client, r.hostname, r.created, j⟩

/-- Decoding of a full scan of the buckets table, in row order; the
first undecodable payload aborts the comprehension. -/
def rowsToMetadata : List BucketRow → Except Err (List (String × Metadata))
  | [] => .ok []
  | r :: rs =>
    match rowToMetadata r, rowsToMetadata rs with
    | .ok m, .ok ms => .ok ((r.id, m) :: ms)
    | .error e, _ => .error e
    | _, .error e => .error e

/-- `buckets()`: full scan, each payload decoded. -/
def buckets (db : DB) : DB × Except Err (List (String × Metadata)) :=
  (db, rowsToMetadata db.buckets)

/-- `get_metadata`: single-row read by public id, `ValueError` (not
found) when absent. -/
def get_metadata (db : DB) (bucket_id : String) : DB × Except Err Metadata :=
  match db.buckets.find? (fun r => decide (r.id = bucket_id)) with
  | none => (db, .error .notFound)
  | some r => (db, rowToMetadata r)

/-- `create_bucket`: `INSERT ... ON CONFLICT (id) DO NOTHING` (the
BIGSERIAL value is consumed either way), unconditional cache
invalidation, then a re-read of the metadata. -/
def create_bucket (db : DB) (bucket_id type_id client hostname created : String)
    (name : Option String) (data : Option Json) : DB × Except Err Metadata :=
  let conflict := db.buckets.any (fun r => decide (r.id = bucket_id))
  let db1 :=
    if conflict then { db with nextBucketRowid := db.nextBucketRowid + 1 }
    else { db with
      buckets := db.buckets ++
        [⟨db.nextBucketRowid, bucket_id, name, type_id, client, hostname, created,
          json_dumps (data.getD (Json.obj []))⟩],
      nextBucketRowid := db.nextBucketRowid + 1 }
  let db2 := { db1 with bucketCache := removeKey db1.bucketCache bucket_id }
  get_metadata db2 bucket_id

/-- Fields optionally supplied to `update_bucket`; `none` means the
keyword argument was left at its `None` default. -/
structure UpdateFields where
  type_id : Option String
  client : Option String
  hostname : Option String
  name : Option String
  data : Option Json

/-- The `updates` list built by `update_bucket` is empty exactly when
every keyword was left at `None`. -/
def UpdateFields.noneSupplied (f : UpdateFields) : Bool :=
  f.type_id.isNone && f.client.isNone && f.hostname.isNone && f.name.isNone && f.data.isNone

/-- Application of the assembled `SET` clauses to one matching row. -/
def applyFields (f : UpdateFields) (r : BucketRow) : BucketRow :=
  { r with
    type_ := f.type_id.getD r.type_,
    client := f.client.getD r.client,
    hostname := f.hostname.getD r.hostname,
    name := match f.name with | some n => some n | none => r.name,
    datastr := match f.data with | some j => json_dumps j | none => r.datastr }

/-- `update_bucket`: `ValueError` when no field is supplied; otherwise
an UPDATE touching only the supplied columns of the matching row (a
zero-row update raises nothing), then a metadata re-read. -/
def update_bucket (db : DB) (bucket_id : String) (f : UpdateFields) :
    DB × Except Err Metadata :=
  if f.noneSupplied then (db, .error .invalidArgument)
  else
    let db1 := { db with
      buckets := db.buckets.map (fun r => if r.id = bucket_id then applyFields f r else r) }
    get_metadata db1 bucket_id

/-- `delete_bucket`: the DELETE executes (autocommit) and the schema
cascades it to every event referencing a removed rowid; a rowcount
other than 1 then raises `ValueError` (not found) before the cache is
popped. -/
def delete_bucket (db : DB) (bucket_id : String) : DB × Except Err Unit :=
  let matched := db.buckets.filter (fun r => decide (r.id = bucket_id))
  let kept := db.buckets.filter (fun r => decide (¬ r.id = bucket_id))
  let deletedRowids := matched.map (fun r => r.rowid)
  let events1 := db.events.filter (fun e => !(deletedRowids.contains e.bucketrow))
  let db1 := { db with buckets := kept, events := events1 }
  if matched.length ≠ 1 then (db1, .error .notFound)
  else ({ db1 with bucketCache := removeKey db1.bucketCache bucket_id }, .ok ())

/-- `s = self._to_us(event.timestamp)`. -/
def eventStartUs (ev : Event) : Int := to_us ev.timestamp

/-- `e = s + int(event.duration.total_seconds() * 1_000_000)`: a
timedelta is an exact count of microseconds. -/
def eventEndUs (ev : Event) : Int := eventStartUs ev + ev.duration.us

/-- `insert_one`: resolve the bucket, insert one row, hand the
RETURNING id back on the event. -/
def insert_one (db : DB) (bucket_id : String) (ev : Event) : DB × Except Err Event :=
  match bucket_rowid db bucket_id with
  | (db1, .error er) => (db1, .error er)
  | (db1, .ok rid) =>
    ({ db1 with
        events := db1.events ++
          [⟨db1.nextEventId, rid, eventStartUs ev, eventEndUs ev, json_dumps ev.data⟩],
        nextEventId := db1.nextEventId + 1 },
     .ok { ev with id := some db1.nextEventId })

/-- One `UPDATE events SET bucketrow=..., starttime=..., endtime=...,
datastr=... WHERE id=...` issued for an event of the updates pass,
applied to one stored row. -/
def updOne (rid : Nat) (ev : Event) (r : EventRow) : EventRow :=
  match ev.id with
  | some i =>
    if r.id = i then ⟨r.id, rid, eventStartUs ev, eventEndUs ev, json_dumps ev.data⟩ else r
  | none => r

/-- Rows produced by the batched `execute_values` INSERT, ids drawn
consecutively from the sequence. -/
def mkRows (rid : Nat) : Nat → List Event → List EventRow
  | _, [] => []
  | nid, ev :: rest =>
    ⟨nid, rid, eventStartUs ev, eventEndUs ev, json_dumps ev.data⟩ :: mkRows rid (nid + 1) rest

/-- `insert_many`: early return on an empty list; otherwise resolve the
bucket, run one UPDATE per event carrying an id, then bulk-insert the
id-less events in one batched statement. -/
def insert_many (db : DB) (bucket_id : String) (events : List Event) :
    DB × Except Err Unit :=
  if events.isEmpty then (db, .ok ())
  else
    match bucket_rowid db bucket_id with
    | (db1, .error er) => (db1, .error er)
    | (db1, .ok rid) =>
      let updates := events.filter (fun e => e.id.isSome)
      let db2 := updates.foldl
        (fun acc ev => { acc with events := acc.events.map (updOne rid ev) }) db1
      let to_insert := events.filter (fun e => e.id.isNone)
      ({ db2 with
          events := db2.events ++ mkRows rid db2.nextEventId to_insert,
          nextEventId := db2.nextEventId + to_insert.length },
       .ok ())

/-- Decoding of one events-table row back into an `Event`, as both
`get_event` and `get_events` do (`none` models a decode exception). -/
def rowToEvent (r : EventRow) : Option Event :=
  match json_loads r.datastr with
  | none => none
  | some j =>
    some { id := some r.id, timestamp := us_to_dt r.starttime,
           duration := dtSub (us_to_dt r.endtime) (us_to_dt r.starttime), data := j }

/-- `get_event`: point lookup scoped to the resolved bucket. -/
def get_event (db : DB) (bucket_id : String) (event_id : Nat) :
    DB × Except Err (Option Event) :=
  match bucket_rowid db bucket_id with
  | (db1, .error er) => (db1, .error er)
  | (db1, .ok rid) =>
    match db1.events.find? (fun r => decide (r.bucketrow = rid ∧ r.id = event_id)) with
    | none => (db1, .ok none)
    | some r =>
      match rowToEvent r with
      | none => (db1, .error .jsonDecode)
      | some ev => (db1, .ok (some ev))

/-- Lower bound of the queried window in microseconds:
`int(starttime.timestamp() * 1_000_000) if starttime else 0`. -/
def startBoundUs : Option DateTime → Int
  | some st => to_us st
  | none => 0

/-- Upper bound of the queried window in microseconds:
`int(endtime.timestamp() * 1_000_000) if endtime else MAX_TIMESTAMP`. -/
def endBoundUs : Option DateTime → Int
  | some et => to_us et
  | none => MAX_TIMESTAMP

/-- Insertion into a list kept in descending `endtime` order. -/
def insertByEndDesc (r : EventRow) : List EventRow → List EventRow
  | [] => [r]
  | x :: xs => if x.endtime ≤ r.endtime then r :: x :: xs else x :: insertByEndDesc r xs

/-- `ORDER BY endtime DESC` (one admissible tie order). -/
def sortByEndDesc : List EventRow → List EventRow
  | [] => []
  | r :: rs => insertByEndDesc r (sortByEndDesc rs)

/-- Decoding of the fetched rows in order; the first undecodable
payload aborts the loop. -/
def rowsToEvents : List EventRow → Option (List Event)
  | [] => some []
  | r :: rs =>
    match rowToEvent r, rowsToEvents rs with
    | some e, some es => some (e :: es)
    | _, _ => none

/-- The trimming loop of `get_events`: a returned event starting before
a supplied start bound is moved up to it (its end recomputed and kept),
and one then ending past a supplied end bound has its duration cut at
the bound. -/
def clipEvent (starttime endtime : Option DateTime) (ev : Event) : Event :=
  let ev1 :=
    match starttime with
    | some st =>
      if ev.timestamp.us < st.us then
        { ev with timestamp := st, duration := dtSub (dtAdd ev.timestamp ev.duration) st }
      else ev
    | none => ev
  match endtime with
  | some et =>
    if et.us < (dtAdd ev1.timestamp ev1.duration).us then
      { ev1 with duration := dtSub et ev1.timestamp }
    else ev1
  | none => ev1

/-- The `WHERE bucketrow=%s AND endtime >= %s AND starttime <= %s`
selection of the events query. -/
def selectRows (db1 : DB) (rid : Nat) (s_i e_i : Int) : List EventRow :=
  db1.events.filter
    (fun r => decide (r.bucketrow = rid ∧ s_i ≤ r.endtime ∧ r.starttime ≤ e_i))

/-- `LIMIT %s` appended exactly when the limit is positive; a negative
limit reads everything. -/
def limitRows (limit : Int) (sorted : List EventRow) : List EventRow :=
  if 0 < limit then sorted.take limit.toNat else sorted

/-- `get_events`: resolve the bucket, short-circuit on `limit == 0`,
select rows of the bucket overlapping `[start, end]` ordered by end
time descending (`LIMIT` applied when positive, unlimited when
negative), decode them, and trim the edges exactly when a bound was
explicitly supplied. -/
def get_events (db : DB) (bucket_id : String) (limit : Int)
    (starttime endtime : Option DateTime) : DB × Except Err (List Event) :=
  match bucket_rowid db bucket_id with
  | (db1, .error er) => (db1, .error er)
  | (db1, .ok rid) =>
    let s_i := startBoundUs starttime
    let e_i := endBoundUs endtime
    if limit = 0 then (db1, .ok [])
    else
      let rows := selectRows db1 rid s_i e_i
      let sorted := sortByEndDesc rows
      let limited := limitRows limit sorted
      match rowsToEvents limited with
      | none => (db1, .error .jsonDecode)
      | some evs =>
        let evs2 :=
          if starttime.isSome || endtime.isSome then evs.map (clipEvent starttime endtime)
          else evs
        (db1, .ok evs2)

/-- `get_eventcount`: count of the rows of the bucket overlapping the
same window, no clipping, no limit. -/
def get_eventcount (db : DB) (bucket_id : String)
    (starttime endtime : Option DateTime) : DB × Except Err Nat :=
  match bucket_rowid db bucket_id with
  | (db1, .error er) => (db1, .error er)
  | (db1, .ok rid) =>
    let s_i := startBoundUs starttime
    let e_i := endBoundUs endtime
    (db1, .ok (db1.events.filter
      (fun r => decide (r.bucketrow = rid ∧ s_i ≤ r.endtime ∧ r.starttime ≤ e_i))).length)

theorem bucket_rowid_preserves (db : DB) (b : String) :
    (bucket_rowid db b).1.events = db.events ∧
    (bucket_rowid db b).1.buckets = db.buckets ∧
    (bucket_rowid db b).1.nextEventId = db.nextEventId ∧
    (bucket_rowid db b).1.nextBucketRowid = db.nextBucketRowid := by
  unfold bucket_rowid
  cases lookupAssoc db.bucketCache b with
  | some rid => exact ⟨rfl, rfl, rfl, rfl⟩
  | none =>
    cases db.buckets.find? (fun r => decide (r.id = b)) with
    | none => exact ⟨rfl, rfl, rfl, rfl⟩
    | some r => exact ⟨rfl, rfl, rfl, rfl⟩

theorem bucket_rowid_cache (db : DB) (b : String) (rid : Nat)
    (h : (bucket_rowid db b).2 = .ok rid) :
    lookupAssoc (bucket_rowid db b).1.bucketCache b = some rid := by
  unfold bucket_rowid at h ⊢
  cases hc : lookupAssoc db.bucketCache b with
  | some r0 =>
    rw [hc] at h
    dsimp only at h ⊢
    injection h with h2
    subst h2
    exact hc
  | none =>
    rw [hc] at h
    cases hf : db.buckets.find? (fun r => decide (r.id = b)) with
    | none =>
      rw [hf] at h
      exact Except.noConfusion h
    | some r =>
      rw [hf] at h
      dsimp only at h ⊢
      injection h with h2
      subst h2
      simp [lookupAssoc]

theorem mem_insertByEndDesc (a r : EventRow) (l : List EventRow) :
    a ∈ insertByEndDesc r l ↔ a = r ∨ a ∈ l := by
  induction l with
  | nil => simp [insertByEndDesc]
  | cons x xs ih =>
    simp only [insertByEndDesc]
    split
    · simp [List.mem_cons]
    · simp only [List.mem_cons, ih]
      tauto

theorem mem_sortByEndDesc (a : EventRow) (l : List EventRow) :
    a ∈ sortByEndDesc l ↔ a ∈ l := by
  induction l with
  | nil => simp [sortByEndDesc]
  | cons x xs ih => simp [sortByEndDesc, mem_insertByEndDesc, ih]

theorem rowsToEvents_mem (rs : List EventRow) (es : List Event)
    (h : rowsToEvents rs = some es) : ∀ e ∈ es, ∃ r ∈ rs, rowToEvent r = some e := by
  induction rs generalizing es with
  | nil =>
    simp only [rowsToEvents, Option.some.injEq] at h
    subst h
    simp
  | cons r rs ih =>
    simp only [rowsToEvents] at h
    cases h1 : rowToEvent r with
    | none => rw [h1] at h; cases h
    | some e0 =>
      rw [h1] at h
      cases h2 : rowsToEvents rs with
      | none => rw [h2] at h; cases h
      | some es0 =>
        rw [h2] at h
        simp only [Option.some.injEq] at h
        subst h
        intro e he
        rcases List.mem_cons.mp he with rfl | hmem
        · exact ⟨r, List.mem_cons_self .., h1⟩
        · rcases ih es0 h2 e hmem with ⟨r2, hr2, he2⟩
          exact ⟨r2, List.mem_cons_of_mem _ hr2, he2⟩

theorem rowToEvent_fields (r : EventRow) (e : Event) (h : rowToEvent r = some e) :
    e.timestamp = ⟨r.starttime, 0⟩ ∧ e.duration = ⟨r.endtime - r.starttime⟩ ∧
    e.id = some r.id := by
  unfold rowToEvent at h
  cases hj : json_loads r.datastr with
  | none => rw [hj] at h; cases h
  | some j => rw [hj] at h; cases h; exact ⟨rfl, rfl, rfl⟩

theorem clipEvent_spec (st et : Option DateTime) (ev : Event) :
    (clipEvent st et ev).timestamp.us =
      (match st with | some s => max ev.timestamp.us s.us | none => ev.timestamp.us) ∧
    (dtAdd (clipEvent st et ev).timestamp (clipEvent st et ev).duration).us =
      (match et with
       | some e => min (dtAdd ev.timestamp ev.duration).us e.us
       | none => (dtAdd ev.timestamp ev.duration).us) ∧
    (∀ s, st = some s → ev.timestamp.us < s.us → (clipEvent st et ev).timestamp = s) := by
  cases st with
  | none =>
    cases et with
    | none => exact ⟨rfl, rfl, fun s hs => nomatch hs⟩
    | some e =>
      unfold clipEvent
      dsimp only [dtAdd, dtSub]
      by_cases h2 : e.us < ev.timestamp.us + ev.duration.us
      · rw [if_pos h2]
        dsimp only
        refine ⟨rfl, ?_, fun s hs => nomatch hs⟩
        rw [min_eq_right (le_of_lt h2)]
        omega
      · rw [if_neg h2]
        refine ⟨rfl, ?_, fun s hs => nomatch hs⟩
        rw [min_eq_left (not_lt.mp h2)]
  | some s =>
    cases et with
    | none =>
      unfold clipEvent
      dsimp only [dtAdd, dtSub]
      by_cases h1 : ev.timestamp.us < s.us
      · rw [if_pos h1]
        dsimp only
        refine ⟨?_, by omega, fun s2 hs2 _ => by cases hs2; rfl⟩
        rw [max_eq_right (le_of_lt h1)]
      · rw [if_neg h1]
        refine ⟨?_, rfl, fun s2 hs2 hlt => by cases hs2; exact absurd hlt h1⟩
        rw [max_eq_left (not_lt.mp h1)]
    | some e =>
      unfold clipEvent
      dsimp only [dtAdd, dtSub]
      by_cases h1 : ev.timestamp.us < s.us
      · rw [if_pos h1]
        dsimp only
        by_cases h2 : e.us < s.us + (ev.timestamp.us + ev.duration.us - s.us)
        · rw [if_pos h2]
          dsimp only
          refine ⟨?_, ?_, fun s2 hs2 _ => by cases hs2; rfl⟩
          · rw [max_eq_right (le_of_lt h1)]
          · have h2a : e.us ≤ ev.timestamp.us + ev.duration.us := by omega
            rw [min_eq_right h2a]
            omega
        · rw [if_neg h2]
          dsimp only
          refine ⟨?_, ?_, fun s2 hs2 _ => by cases hs2; rfl⟩
          · rw [max_eq_right (le_of_lt h1)]
          · have h2a : ev.timestamp.us + ev.duration.us ≤ e.us := by omega
            rw [min_eq_left h2a]
            omega
      · rw [if_neg h1]
        by_cases h2 : e.us < ev.timestamp.us + ev.duration.us
        · rw [if_pos h2]
          dsimp only
          refine ⟨?_, ?_, fun s2 hs2 hlt => by cases hs2; exact absurd hlt h1⟩
          · rw [max_eq_left (not_lt.mp h1)]
          · rw [min_eq_right (le_of_lt h2)]
            omega
        · rw [if_neg h2]
          refine ⟨?_, ?_, fun s2 hs2 hlt => by cases hs2; exact absurd hlt h1⟩
          · rw [max_eq_left (not_lt.mp h1)]
          · rw [min_eq_left (not_lt.mp h2)]

theorem clipEvent_none_none (ev : Event) : clipEvent none none ev = ev := rfl

theorem get_metadata_fst (db : DB) (b : String) : (get_metadata db b).1 = db := by
  unfold get_metadata
  cases db.buckets.find? (fun r => decide (r.id = b)) <;> rfl

/-- Example store used by witnesses: one bucket `b1` (rowid 1, cached)
holding one event `[0, 10]`. -/
def dbW : DB :=
  { buckets := [⟨1, "b1", none, "test", "client", "host", "created", "\x7b\x7d"⟩],
    events := [⟨1, 1, 0, 10, "\x7b\x7d"⟩],
    nextBucketRowid := 2, nextEventId := 2, bucketCache := [("b1", 1)] }

/-- C10: update_bucket with at least one field on a missing bucket
raises NotFound (only from the metadata re-read; the zero-row UPDATE
itself raises nothing) and modifies no bucket row. -/
theorem update_bucket_missing_bucket (db : DB) (b : String) (f : UpdateFields)
    (hf : f.noneSupplied = false) (habs : ∀ r ∈ db.buckets, r.id ≠ b) :
    update_bucket db b f = (db, .error .notFound) := by
  unfold update_bucket
  rw [hf]
  have hmap : db.buckets.map (fun r => if r.id = b then applyFields f r else r)
      = db.buckets := by
    have h1 : ∀ r ∈ db.buckets, (if r.id = b then applyFields f r else r) = r := by
      intro r hr
      rw [if_neg (habs r hr)]
    rw [List.map_congr_left h1]
    simp
  have hfind : db.buckets.find? (fun r => decide (r.id = b)) = none := by
    rw [List.find?_eq_none]
    intro r hr
    simp [habs r hr]
  simp only [Bool.false_eq_true, if_false]
  unfold get_metadata
  dsimp only
  rw [hmap, hfind]

theorem update_bucket_missing_bucket_witness :
    (⟨some "t2", none, none, none, none⟩ : UpdateFields).noneSupplied = false ∧
    update_bucket dbW ("nosuch") ⟨some "t2", none, none, none, none⟩ =
      (dbW, .error .notFound) :=
  ⟨rfl, update_bucket_missing_bucket dbW ("nosuch") _ rfl (by decide)⟩

/-- C7: update_bucket with no field supplied fails with InvalidArgument
and changes nothing; with at least one field supplied only the supplied
columns of the matching row change and all others are untouched. -/
theorem update_bucket_partial_update (db : DB) (b : String) (f : UpdateFields) :
    (f.noneSupplied = true → update_bucket db b f = (db, .error .invalidArgument)) ∧
    (f.noneSupplied = false →
      (update_bucket db b f).1.events = db.events ∧
      (update_bucket db b f).1.bucketCache = db.bucketCache ∧
      (∀ r ∈ db.buckets, r.id ≠ b → r ∈ (update_bucket db b f).1.buckets) ∧
      (∀ r ∈ db.buckets, r.id = b →
        ∃ r2 ∈ (update_bucket db b f).1.buckets,
          r2.rowid = r.rowid ∧ r2.id = r.id ∧ r2.created = r.created ∧
          (∀ v, f.type_id = some v → r2.type_ = v) ∧
          (f.type_id = none → r2.type_ = r.type_) ∧
          (∀ v, f.client = some v → r2.client = v) ∧
          (f.client = none → r2.client = r.client) ∧
          (∀ v, f.hostname = some v → r2.hostname = v) ∧
          (f.hostname = none → r2.hostname = r.hostname) ∧
          (∀ v, f.name = some v → r2.name = some v) ∧
          (f.name = none → r2.name = r.name) ∧
          (∀ j, f.data = some j → r2.datastr = json_dumps j) ∧
          (f.data = none → r2.datastr = r.datastr))) := by
  constructor
  · intro hf
    unfold update_bucket
    rw [hf]
    rfl
  · intro hf
    have hfst : (update_bucket db b f).1 =
        { db with buckets :=
            db.buckets.map (fun r => if r.id = b then applyFields f r else r) } := by
      unfold update_bucket
      rw [hf]
      simp only [Bool.false_eq_true, if_false]
      rw [get_metadata_fst]
    rw [hfst]
    refine ⟨rfl, rfl, ?_, ?_⟩
    · intro r hr hne
      exact List.mem_map.mpr ⟨r, hr, by rw [if_neg hne]⟩
    · intro r hr hid
      refine ⟨applyFields f r, List.mem_map.mpr ⟨r, hr, by rw [if_pos hid]⟩,
        rfl, rfl, rfl, ?_, ?_, ?_, ?_, ?_, ?_, ?_, ?_, ?_, ?_⟩
      · intro v hv; simp [applyFields, hv]
      · intro hv; simp [applyFields, hv]
      · intro v hv; simp [applyFields, hv]
      · intro hv; simp [applyFields, hv]
      · intro v hv; simp [applyFields, hv]
      · intro hv; simp [applyFields, hv]
      · intro v hv; simp [applyFields, hv]
      · intro hv; simp [applyFields, hv]
      · intro j hj; simp [applyFields, hj]
      · intro hj; simp [applyFields, hj]

theorem update_bucket_partial_update_witness :
    (⟨some "t2", none, none, none, none⟩ : UpdateFields).noneSupplied = false ∧
    ((update_bucket dbW ("b1") ⟨some "t2", none, none, none, none⟩).1.events = dbW.events ∧
      (update_bucket dbW ("b1") ⟨some "t2", none, none, none, none⟩).1.bucketCache =
        dbW.bucketCache ∧
      (∀ r ∈ dbW.buckets, r.id ≠ "b1" →
        r ∈ (update_bucket dbW ("b1") ⟨some "t2", none, none, none, none⟩).1.buckets) ∧
      (∀ r ∈ dbW.buckets, r.id = "b1" →
        ∃ r2 ∈ (update_bucket dbW ("b1") ⟨some "t2", none, none, none, none⟩).1.buckets,
          r2.rowid = r.rowid ∧ r2.id = r.id ∧ r2.created = r.created ∧
          (∀ v, (some "t2" : Option String) = some v → r2.type_ = v) ∧
          ((some "t2" : Option String) = none → r2.type_ = r.type_) ∧
          (∀ v, (none : Option String) = some v → r2.client = v) ∧
          ((none : Option String) = none → r2.client = r.client) ∧
          (∀ v, (none : Option String) = some v → r2.hostname = v) ∧
          ((none : Option String) = none → r2.hostname = r.hostname) ∧
          (∀ v, (none : Option String) = some v → r2.name = some v) ∧
          ((none : Option String) = none → r2.name = r.name) ∧
          (∀ j, (none : Option Json) = some j → r2.datastr = json_dumps j) ∧
          ((none : Option Json) = none → r2.datastr = r.datastr))) :=
  ⟨rfl, (update_bucket_partial_update dbW ("b1") ⟨some "t2", none, none, none, none⟩).2 rfl⟩

theorem bucket_rowid_snd_events_irrel (db : DB) (evs : List EventRow) (b : String) :
    (bucket_rowid { db with events := evs } b).2 = (bucket_rowid db b).2 := by
  unfold bucket_rowid
  dsimp only
  cases lookupAssoc db.bucketCache b with
  | some rid => rfl
  | none =>
    cases db.buckets.find? (fun r => decide (r.id = b)) with
    | none => rfl
    | some r => rfl

/-- C4 (amended): on a bucket that resolves, get_events with limit 0
returns the empty list, and does so whatever the contents of the events
table (no events query is needed; bucket resolution itself may still
read the buckets table on a cache miss).  As stated the claim is false
for an unresolvable bucket identifier: see the counterexample. -/
theorem get_events_limit_zero (db : DB) (b : String) (st et : Option DateTime) (rid : Nat)
    (hres : (bucket_rowid db b).2 = .ok rid) :
    (get_events db b 0 st et).2 = .ok [] ∧
    ∀ evs, (get_events { db with events := evs } b 0 st et).2 = .ok [] := by
  have main : ∀ evs, (get_events { db with events := evs } b 0 st et).2 = .ok [] := by
    intro evs
    unfold get_events
    rcases hbr : bucket_rowid { db with events := evs } b with ⟨db1, res⟩
    have h2 : res = .ok rid := by
      have h3 := bucket_rowid_snd_events_irrel db evs b
      rw [hbr] at h3
      dsimp only at h3
      rw [h3]
      exact hres
    subst h2
    rfl
  exact ⟨main db.events, main⟩

theorem get_events_limit_zero_witness :
    (bucket_rowid dbW ("b1")).2 = .ok 1 ∧
    ((get_events dbW ("b1") 0 none none).2 = .ok [] ∧
      ∀ evs, (get_events { dbW with events := evs } ("b1") 0 none none).2 = .ok []) :=
  ⟨rfl, get_events_limit_zero dbW ("b1") none none 1 rfl⟩

/-- Completely empty store. -/
def dbEmpty : DB := ⟨[], [], 1, 1, []⟩

/-- C4 as stated is false: with limit 0 and a bucket identifier that
does not exist, get_events raises NotFound (bucket resolution precedes
the limit check) instead of returning an empty sequence. -/
theorem get_events_limit_zero_missing_bucket :
    (get_events dbEmpty ("nosuch") 0 none none).2 = .error .notFound ∧
    ∀ l, (get_events dbEmpty ("nosuch") 0 none none).2 ≠ .ok l :=
  ⟨rfl, fun _ h => Except.noConfusion h⟩

theorem rowsToMetadata_all_empty (l : List BucketRow) (h : ∀ x ∈ l, x.datastr = "") :
    rowsToMetadata l = .ok (l.map (fun x =>
      (x.id, ⟨x.id, x.name, x.type_, x.client, x.hostname, x.created, Json.obj []⟩))) := by
  induction l with
  | nil => rfl
  | cons r rs ih =>
    unfold rowsToMetadata
    rw [ih (fun x hx => h x (List.mem_cons_of_mem _ hx))]
    have hr : rowToMetadata r =
        .ok ⟨r.id, r.name, r.type_, r.client, r.hostname, r.created, Json.obj []⟩ := by
      unfold rowToMetadata
      rw [if_pos (h r (List.mem_cons_self r rs))]
      rfl
    rw [hr]
    rfl

/-- C5 (amended): bucket payloads are decoded by list_buckets and
get_metadata; an absent (empty) payload decodes to the empty mapping
without error, and a decodable payload to its value, but a malformed
non-empty payload makes the decode raise rather than yield an empty
mapping — the original claim fails there (see the counterexample). -/
theorem bucket_payload_decode (db : DB) (b : String) (r : BucketRow)
    (hfind : db.buckets.find? (fun x => decide (x.id = b)) = some r) :
    (r.datastr = "" →
      (get_metadata db b).2 =
        .ok ⟨r.id, r.name, r.type_, r.client, r.hostname, r.created, Json.obj []⟩) ∧
    (∀ j, json_loads r.datastr = some j →
      (get_metadata db b).2 =
        .ok ⟨r.id, r.name, r.type_, r.client, r.hostname, r.created, j⟩) ∧
    (r.datastr ≠ "" → json_loads r.datastr = none →
      (get_metadata db b).2 = .error .jsonDecode) ∧
    ((∀ x ∈ db.buckets, x.datastr = "") →
      (buckets db).2 = .ok (db.buckets.map (fun x =>
        (x.id, ⟨x.id, x.name, x.type_, x.client, x.hostname, x.created, Json.obj []⟩)))) := by
  have hmeta : (get_metadata db b).2 = rowToMetadata r := by
    unfold get_metadata
    rw [hfind]
  refine ⟨?_, ?_, ?_, ?_⟩
  · intro h
    rw [hmeta]
    unfold rowToMetadata
    rw [if_pos h]
    rfl
  · intro j hj
    rw [hmeta]
    by_cases h : r.datastr = ""
    · rw [h] at hj
      exact Option.noConfusion hj
    · unfold rowToMetadata
      rw [if_neg h, hj]
  · intro h hn
    rw [hmeta]
    unfold rowToMetadata
    rw [if_neg h, hn]
  · intro hall
    unfold buckets
    exact rowsToMetadata_all_empty db.buckets hall

/-- Store whose single bucket row carries an empty (absent) payload. -/
def dbEmptyPayload : DB :=
  { buckets := [⟨1, "b1", none, "test", "client", "host", "created", ""⟩],
    events := [], nextBucketRowid := 2, nextEventId := 1, bucketCache := [] }

theorem bucket_payload_decode_witness :
    dbEmptyPayload.buckets.find? (fun x => decide (x.id = "b1")) =
      some ⟨1, "b1", none, "test", "client", "host", "created", ""⟩ ∧
    ((get_metadata dbEmptyPayload ("b1")).2 =
      .ok ⟨"b1", none, "test", "client", "host", "created", Json.obj []⟩ ∧
     (buckets dbEmptyPayload).2 =
      .ok [("b1", ⟨"b1", none, "test", "client", "host", "created", Json.obj []⟩)]) :=
  ⟨rfl,
   (bucket_payload_decode dbEmptyPayload ("b1") _ rfl).1 rfl,
   (bucket_payload_decode dbEmptyPayload ("b1")
      ⟨1, "b1", none, "test", "client", "host", "created", ""⟩ rfl).2.2.2 (by decide)⟩

/-- Store whose single bucket row carries a malformed non-empty payload. -/
def dbBadPayload : DB :=
  { buckets := [⟨1, "b1", none, "test", "client", "host", "created", "x"⟩],
    events := [], nextBucketRowid := 2, nextEventId := 1, bucketCache := [] }

/-- C5 as stated is false: on a malformed non-empty payload both
get_metadata and list_buckets raise a decode error instead of yielding
an empty mapping. -/
theorem bucket_payload_malformed_raises :
    (get_metadata dbBadPayload ("b1")).2 = .error .jsonDecode ∧
    (buckets dbBadPayload).2 = .error .jsonDecode ∧
    ∀ m, (get_metadata dbBadPayload ("b1")).2 ≠ .ok m :=
  ⟨rfl, rfl, fun _ h => Except.noConfusion h⟩

theorem lookupAssoc_removeKey (l : List (String × Nat)) (b : String) :
    lookupAssoc (removeKey l b) b = none := by
  induction l with
  | nil => rfl
  | cons kv rest ih =>
    unfold removeKey at ih ⊢
    by_cases h : kv.1 = b
    · rw [List.filter_cons_of_neg (by simp [h])]
      exact ih
    · rw [List.filter_cons_of_pos (by simp [h])]
      unfold lookupAssoc
      rw [if_neg h]
      exact ih

theorem get_metadata_ok (db : DB) (b : String) (m : Metadata)
    (h : (get_metadata db b).2 = .ok m) :
    ∃ r, db.buckets.find? (fun x => decide (x.id = b)) = some r ∧
      rowToMetadata r = .ok m := by
  unfold get_metadata at h
  cases hf : db.buckets.find? (fun x => decide (x.id = b)) with
  | none => rw [hf] at h; exact Except.noConfusion h
  | some r => rw [hf] at h; exact ⟨r, rfl, h⟩

theorem create_bucket_eq (db : DB) (b t c hn cr : String) (nm : Option String)
    (d : Option Json) :
    create_bucket db b t c hn cr nm d =
      get_metadata (create_bucket db b t c hn cr nm d).1 b := by
  unfold create_bucket
  rw [get_metadata_fst]

/-- State left by a conflicting (no-op) insert of create_bucket: the
BIGSERIAL value is consumed and the cache entry dropped. -/
def bumpSeqDropCache (db : DB) (b : String) : DB :=
  { db with nextBucketRowid := db.nextBucketRowid + 1,
            bucketCache := removeKey db.bucketCache b }

theorem create_bucket_state (db : DB) (b t c hn cr : String) (nm : Option String)
    (d : Option Json)
    (hconf : db.buckets.any (fun r => decide (r.id = b)) = true) :
    (create_bucket db b t c hn cr nm d).1 = bumpSeqDropCache db b ∧
    (create_bucket db b t c hn cr nm d).2 =
      (get_metadata (bumpSeqDropCache db b) b).2 := by
  unfold bumpSeqDropCache
  unfold create_bucket
  rw [hconf]
  dsimp only
  exact ⟨get_metadata_fst _ _, rfl⟩

/-- C3: create_bucket is idempotent — a second call with the same
identifier does not error, performs a no-op insert that leaves every
bucket row unchanged, invalidates the cache entry for the identifier,
and returns the metadata re-read from storage, equal to what the first
call returned. -/
theorem create_bucket_idempotent
    (db : DB) (b t c hn cr : String) (nm : Option String) (d : Option Json)
    (t2 c2 h2 cr2 : String) (nm2 : Option String) (d2 : Option Json)
    (m1 : Metadata)
    (h1 : (create_bucket db b t c hn cr nm d).2 = .ok m1) :
    (create_bucket (create_bucket db b t c hn cr nm d).1 b t2 c2 h2 cr2 nm2 d2).2 =
      .ok m1 ∧
    (create_bucket (create_bucket db b t c hn cr nm d).1 b t2 c2 h2 cr2 nm2 d2).1.buckets =
      (create_bucket db b t c hn cr nm d).1.buckets ∧
    lookupAssoc
      (create_bucket (create_bucket db b t c hn cr nm d).1 b t2 c2 h2 cr2 nm2 d2).1.bucketCache
      b = none := by
  have h1m : (get_metadata (create_bucket db b t c hn cr nm d).1 b).2 = .ok m1 := by
    rw [← create_bucket_eq db b t c hn cr nm d]
    exact h1
  obtain ⟨r, hfind, hrm⟩ := get_metadata_ok _ _ _ h1m
  have hconf : (create_bucket db b t c hn cr nm d).1.buckets.any
      (fun x => decide (x.id = b)) = true := by
    have hpr := List.find?_some hfind
    exact List.any_eq_true.mpr ⟨r, List.mem_of_find?_eq_some hfind, hpr⟩
  obtain ⟨hst, hres⟩ := create_bucket_state (create_bucket db b t c hn cr nm d).1
    b t2 c2 h2 cr2 nm2 d2 hconf
  refine ⟨?_, ?_, ?_⟩
  · rw [hres]
    unfold get_metadata bumpSeqDropCache
    dsimp only
    rw [hfind]
    dsimp only
    exact hrm
  · rw [hst]
    rfl
  · rw [hst]
    unfold bumpSeqDropCache
    dsimp only
    exact lookupAssoc_removeKey _ b

theorem create_bucket_idempotent_witness :
    (create_bucket dbEmpty ("bw") ("t") ("c") ("h") ("cr") none none).2 =
      .ok ⟨"bw", none, "t", "c", "h", "cr", Json.obj []⟩ ∧
    ((create_bucket (create_bucket dbEmpty ("bw") ("t") ("c") ("h") ("cr") none none).1
        ("bw") ("t2") ("c2") ("h2") ("cr2") none none).2 =
      .ok ⟨"bw", none, "t", "c", "h", "cr", Json.obj []⟩ ∧
     (create_bucket (create_bucket dbEmpty ("bw") ("t") ("c") ("h") ("cr") none none).1
        ("bw") ("t2") ("c2") ("h2") ("cr2") none none).1.buckets =
      (create_bucket dbEmpty ("bw") ("t") ("c") ("h") ("cr") none none).1.buckets ∧
     lookupAssoc
      (create_bucket (create_bucket dbEmpty ("bw") ("t") ("c") ("h") ("cr") none none).1
        ("bw") ("t2") ("c2") ("h2") ("cr2") none none).1.bucketCache ("bw") = none) :=
  ⟨rfl, create_bucket_idempotent dbEmpty ("bw") ("t") ("c") ("h") ("cr") none none
    ("t2") ("c2") ("h2") ("cr2") none none _ rfl⟩

theorem filter_id_eq_singleton (l : List BucketRow) (b : String) (r0 : BucketRow)
    (hmem : r0 ∈ l) (hid : r0.id = b)
    (hnodup : l.Pairwise (fun x y => x.id ≠ y.id)) :
    l.filter (fun r => decide (r.id = b)) = [r0] := by
  induction l with
  | nil => cases hmem
  | cons x xs ih =>
    rw [List.pairwise_cons] at hnodup
    rcases List.mem_cons.mp hmem with rfl | hmem2
    · rw [List.filter_cons_of_pos (by simp [hid])]
      have hnil : xs.filter (fun r => decide (r.id = b)) = [] := by
        rw [List.filter_eq_nil_iff]
        intro a ha
        simp only [decide_eq_true_eq]
        intro hab
        exact (hnodup.1 a ha) (hid.trans hab.symm)
      rw [hnil]
    · have hxb : ¬ x.id = b := fun hxb => (hnodup.1 r0 hmem2) (hxb.trans hid.symm)
      rw [List.filter_cons_of_neg (by simp [hxb])]
      exact ih hmem2 hnodup.2

/-- C6: delete_bucket raises NotFound (leaving both tables unchanged)
when no bucket row matches; when one row matches, the call succeeds,
drops the directory cache entry, the schema cascade removes every event
referencing the deleted rowid, and a subsequent get_eventcount on that
identifier fails with NotFound instead of returning 0. -/
theorem delete_bucket_cascade (db : DB) (b : String) :
    ((∀ r ∈ db.buckets, r.id ≠ b) →
      (delete_bucket db b).2 = .error .notFound ∧
      (delete_bucket db b).1.buckets = db.buckets ∧
      (delete_bucket db b).1.events = db.events) ∧
    (∀ r0 ∈ db.buckets, r0.id = b →
      db.buckets.Pairwise (fun x y => x.id ≠ y.id) →
      (delete_bucket db b).2 = .ok () ∧
      lookupAssoc (delete_bucket db b).1.bucketCache b = none ∧
      (∀ e ∈ (delete_bucket db b).1.events, e.bucketrow ≠ r0.rowid) ∧
      (get_eventcount (delete_bucket db b).1 b none none).2 = .error .notFound) := by
  constructor
  · intro habs
    have hm0 : db.buckets.filter (fun r => decide (r.id = b)) = [] := by
      rw [List.filter_eq_nil_iff]
      intro r hr
      simp [habs r hr]
    have hkept : db.buckets.filter (fun r => decide (¬ r.id = b)) = db.buckets := by
      rw [List.filter_eq_self]
      intro r hr
      simp [habs r hr]
    have hev : db.events.filter
        (fun e => !((([] : List BucketRow).map (fun r => r.rowid)).contains e.bucketrow))
        = db.events := List.filter_eq_self.mpr (fun a _ => rfl)
    unfold delete_bucket
    dsimp only
    rw [hm0, hkept, hev]
    rw [if_pos (by simp)]
    exact ⟨rfl, rfl, rfl⟩
  · intro r0 hmem hid hnodup
    have hm : db.buckets.filter (fun r => decide (r.id = b)) = [r0] :=
      filter_id_eq_singleton db.buckets b r0 hmem hid hnodup
    have hdel : delete_bucket db b =
        ({ db with
            buckets := db.buckets.filter (fun r => decide (¬ r.id = b)),
            events := db.events.filter
              (fun e => !((([r0] : List BucketRow).map (fun r => r.rowid)).contains
                e.bucketrow)),
            bucketCache := removeKey db.bucketCache b }, .ok ()) := by
      unfold delete_bucket
      dsimp only
      rw [hm]
      rw [if_neg (by simp)]
    rw [hdel]
    dsimp only
    refine ⟨rfl, lookupAssoc_removeKey _ b, ?_, ?_⟩
    · intro e he
      have h2 := (List.mem_filter.mp he).2
      simp only [List.map, List.contains_cons, List.contains_nil, Bool.or_false,
        Bool.not_eq_true', beq_eq_false_iff_ne, ne_eq] at h2
      exact h2
    · have hcache : lookupAssoc (removeKey db.bucketCache b) b = none :=
        lookupAssoc_removeKey _ b
      have hfind : (db.buckets.filter (fun r => decide (¬ r.id = b))).find?
          (fun r => decide (r.id = b)) = none := by
        rw [List.find?_eq_none]
        intro r hr
        have := (List.mem_filter.mp hr).2
        simp only [decide_eq_true_eq] at this ⊢
        exact this
      unfold get_eventcount bucket_rowid
      dsimp only
      rw [hcache, hfind]

theorem delete_bucket_cascade_witness :
    (⟨1, "b1", none, "test", "client", "host", "created", "\x7b\x7d"⟩ : BucketRow) ∈
      dbW.buckets ∧
    ((delete_bucket dbW ("b1")).2 = .ok () ∧
     lookupAssoc (delete_bucket dbW ("b1")).1.bucketCache ("b1") = none ∧
     (∀ e ∈ (delete_bucket dbW ("b1")).1.events, e.bucketrow ≠ 1) ∧
     (get_eventcount (delete_bucket dbW ("b1")).1 ("b1") none none).2 = .error .notFound) :=
  ⟨by decide, (delete_bucket_cascade dbW ("b1")).2
    ⟨1, "b1", none, "test", "client", "host", "created", "\x7b\x7d"⟩
    (by decide) rfl (by decide)⟩

theorem find?_append_skip {α : Type} (p : α → Bool) (l1 l2 : List α)
    (h : ∀ a ∈ l1, p a = false) : (l1 ++ l2).find? p = l2.find? p := by
  induction l1 with
  | nil => rfl
  | cons x xs ih =>
    rw [List.cons_append, List.find?_cons_of_neg]
    · exact ih (fun a ha => h a (List.mem_cons_of_mem _ ha))
    · simp [h x (List.mem_cons_self x xs)]

theorem get_event_found (db2 : DB) (b : String) (rid : Nat) (row : EventRow)
    (hcache2 : lookupAssoc db2.bucketCache b = some rid)
    (hfind : db2.events.find? (fun r => decide (r.bucketrow = rid ∧ r.id = row.id)) =
      some row)
    (j : Json) (hj : json_loads row.datastr = some j) :
    (get_event db2 b row.id).2 =
      .ok (some { id := some row.id, timestamp := us_to_dt row.starttime,
                  duration := dtSub (us_to_dt row.endtime) (us_to_dt row.starttime),
                  data := j }) := by
  unfold get_event bucket_rowid
  rw [hcache2]
  dsimp only
  rw [hfind]
  dsimp only
  unfold rowToEvent
  rw [hj]

/-- C8: an event of duration D inserted through insert_one is stored as
integer microseconds, and reading it straight back through get_event
yields an event whose end minus start (its duration) is exactly D — D
is already at microsecond granularity, to which conversion truncates —
carried on a UTC-normalized timestamp (offset zero) at the stored
microsecond instant. -/
theorem insert_one_get_event_roundtrip (db : DB) (b : String) (ev : Event) (rid : Nat)
    (hres : (bucket_rowid db b).2 = .ok rid)
    (hseq : ∀ r ∈ db.events, r.id < db.nextEventId)
    (hdata : (json_loads (json_dumps ev.data)).isSome = true) :
    (insert_one db b ev).2 = .ok { ev with id := some db.nextEventId } ∧
    (∃ r ∈ (insert_one db b ev).1.events,
        r.id = db.nextEventId ∧ r.bucketrow = rid ∧
        r.starttime = to_us ev.timestamp ∧
        r.endtime = to_us ev.timestamp + ev.duration.us) ∧
    (∃ rv, (get_event (insert_one db b ev).1 b db.nextEventId).2 = .ok (some rv) ∧
        rv.duration = ev.duration ∧
        rv.timestamp.us = to_us ev.timestamp ∧
        rv.timestamp.offsetUs = 0) := by
  rcases hbr : bucket_rowid db b with ⟨db1, res⟩
  have hres2 : res = .ok rid := by rw [hbr] at hres; exact hres
  subst hres2
  have hpre := bucket_rowid_preserves db b
  rw [hbr] at hpre
  obtain ⟨hevs, hbks, hnid, _⟩ := hpre
  dsimp only at hevs hbks hnid
  have hcache := bucket_rowid_cache db b rid (by rw [hbr])
  rw [hbr] at hcache
  dsimp only at hcache
  have hins : insert_one db b ev =
      ({ db1 with
          events := db1.events ++
            [⟨db1.nextEventId, rid, eventStartUs ev, eventEndUs ev, json_dumps ev.data⟩],
          nextEventId := db1.nextEventId + 1 },
       .ok { ev with id := some db1.nextEventId }) := by
    unfold insert_one
    rw [hbr]
  rw [hnid] at hins
  obtain ⟨j, hj⟩ := Option.isSome_iff_exists.mp hdata
  have hrowfind : (insert_one db b ev).1.events.find?
      (fun r => decide (r.bucketrow = rid ∧ r.id = db.nextEventId)) =
      some ⟨db.nextEventId, rid, eventStartUs ev, eventEndUs ev, json_dumps ev.data⟩ := by
    rw [hins]
    dsimp only
    rw [find?_append_skip]
    · rw [List.find?_cons_of_pos]
      exact decide_eq_true ⟨rfl, rfl⟩
    · intro r hr
      rw [hevs] at hr
      exact decide_eq_false (fun hcon => absurd hcon.2 (Nat.ne_of_lt (hseq r hr)))
  refine ⟨?_, ?_, ?_⟩
  · rw [hins]
  · rw [hins]
    dsimp only
    exact ⟨⟨db.nextEventId, rid, eventStartUs ev, eventEndUs ev, json_dumps ev.data⟩,
      List.mem_append_right _ (List.mem_cons_self _ _), rfl, rfl, rfl, rfl⟩
  · have hcache3 : lookupAssoc (insert_one db b ev).1.bucketCache b = some rid := by
      rw [hins]
      exact hcache
    have hg := get_event_found (insert_one db b ev).1 b rid
      ⟨db.nextEventId, rid, eventStartUs ev, eventEndUs ev, json_dumps ev.data⟩
      hcache3 hrowfind j hj
    refine ⟨_, hg, ?_, rfl, rfl⟩
    show dtSub (us_to_dt (eventEndUs ev)) (us_to_dt (eventStartUs ev)) = ev.duration
    simp only [dtSub, us_to_dt, eventEndUs, eventStartUs]
    have harith : to_us ev.timestamp + ev.duration.us - to_us ev.timestamp =
        ev.duration.us := by omega
    rw [harith]

theorem insert_one_get_event_roundtrip_witness :
    (bucket_rowid dbW ("b1")).2 = .ok 1 ∧
    ((insert_one dbW ("b1") ⟨none, ⟨100, 0⟩, ⟨7⟩, Json.obj []⟩).2 =
      .ok { id := some 2, timestamp := ⟨100, 0⟩, duration := ⟨7⟩,
            data := Json.obj [] } ∧
     (∃ r ∈ (insert_one dbW ("b1") ⟨none, ⟨100, 0⟩, ⟨7⟩, Json.obj []⟩).1.events,
        r.id = 2 ∧ r.bucketrow = 1 ∧ r.starttime = 100 ∧ r.endtime = 107) ∧
     (∃ rv, (get_event (insert_one dbW ("b1") ⟨none, ⟨100, 0⟩, ⟨7⟩, Json.obj []⟩).1
          ("b1") 2).2 = .ok (some rv) ∧
        rv.duration = ⟨7⟩ ∧ rv.timestamp.us = 100 ∧ rv.timestamp.offsetUs = 0)) :=
  ⟨rfl, insert_one_get_event_roundtrip dbW ("b1") ⟨none, ⟨100, 0⟩, ⟨7⟩, Json.obj []⟩ 1
    rfl (by decide) rfl⟩

theorem foldl_upd_events (rid : Nat) (ups : List Event) (dba : DB) :
    ups.foldl (fun acc ev => { acc with events := acc.events.map (updOne rid ev) }) dba =
      { dba with events := (dba.events.map
          (fun r => ups.foldl (fun acc ev => updOne rid ev acc) r)) } := by
  induction ups generalizing dba with
  | nil =>
    show dba = { dba with events := dba.events.map (fun r => r) }
    rw [List.map_id']
  | cons u us ih =>
    rw [List.foldl_cons, ih]
    show ({ dba with events := ((dba.events.map (updOne rid u)).map
        (fun r => List.foldl (fun acc ev => updOne rid ev acc) r us)) } : DB) = _
    rw [List.map_map]
    rfl

theorem mkRows_length (rid : Nat) (nid : Nat) (l : List Event) :
    (mkRows rid nid l).length = l.length := by
  induction l generalizing nid with
  | nil => rfl
  | cons ev rest ih =>
    unfold mkRows
    rw [List.length_cons, List.length_cons, ih]

/-- State produced by a successful insert_many call: the updates pass
folded over every stored row, then the batched insert appended. -/
def insertManyResult (db1 : DB) (rid : Nat) (evs : List Event) : DB :=
  { db1 with
    events := (db1.events.map (fun r =>
        (evs.filter (fun e => e.id.isSome)).foldl (fun acc ev => updOne rid ev acc) r)
      ++ mkRows rid db1.nextEventId (evs.filter (fun e => e.id.isNone))),
    nextEventId := db1.nextEventId + (evs.filter (fun e => e.id.isNone)).length }

theorem insert_many_ok (db : DB) (b : String) (evs : List Event) (rid : Nat)
    (hne : evs.isEmpty = false) (hres : (bucket_rowid db b).2 = .ok rid) :
    insert_many db b evs = (insertManyResult (bucket_rowid db b).1 rid evs, .ok ()) := by
  rcases hbr : bucket_rowid db b with ⟨db1, res⟩
  have hres2 : res = .ok rid := by rw [hbr] at hres; exact hres
  subst hres2
  unfold insert_many
  rw [hne]
  simp only [Bool.false_eq_true, if_false]
  rw [hbr]
  dsimp only
  rw [foldl_upd_events]
  unfold insertManyResult
  rfl

theorem foldl_updOne_skip (rid : Nat) (vs : List Event) :
    ∀ r : EventRow, (∀ w ∈ vs, ∀ j, w.id = some j → j ≠ r.id) →
    List.foldl (fun acc ev => updOne rid ev acc) r vs = r := by
  induction vs with
  | nil => intro r _; rfl
  | cons w ws ih =>
    intro r h
    rw [List.foldl_cons]
    have hw : updOne rid w r = r := by
      unfold updOne
      cases hwid : w.id with
      | none => rfl
      | some j =>
        dsimp only
        rw [if_neg (fun hrj => (h w (List.mem_cons_self w ws) j hwid) hrj.symm)]
    rw [hw]
    exact ih r (fun w2 hw2 => h w2 (List.mem_cons_of_mem _ hw2))

theorem foldl_updOne_target (rid i : Nat) (ups : List Event) :
    (ups.filterMap (fun e => e.id)).Nodup →
    ∀ u ∈ ups, u.id = some i →
    ∀ r : EventRow, r.id = i →
    List.foldl (fun acc ev => updOne rid ev acc) r ups =
      ⟨r.id, rid, eventStartUs u, eventEndUs u, json_dumps u.data⟩ := by
  induction ups with
  | nil =>
    intro _ u hu
    cases hu
  | cons v vs ih =>
    intro hnd u hu hui r hri
    rw [List.foldl_cons]
    rcases List.mem_cons.mp hu with rfl | hu2
    · simp only [List.filterMap_cons, hui, List.nodup_cons] at hnd
      have hv : updOne rid u r =
          ⟨r.id, rid, eventStartUs u, eventEndUs u, json_dumps u.data⟩ := by
        unfold updOne
        rw [hui]
        dsimp only
        rw [if_pos hri]
      rw [hv]
      apply foldl_updOne_skip
      intro w hw j hwj hji
      have hji2 : j = i := by
        rw [hji]
        exact hri
      refine hnd.1 (List.mem_filterMap.mpr ⟨w, hw, ?_⟩)
      rw [hwj, hji2]
    · have hnd2 : (vs.filterMap (fun e => e.id)).Nodup := by
        cases hvid : v.id with
        | none => simpa [List.filterMap_cons, hvid] using hnd
        | some j =>
          simp only [List.filterMap_cons, hvid, List.nodup_cons] at hnd
          exact hnd.2
      have hv : updOne rid v r = r := by
        unfold updOne
        cases hvid : v.id with
        | none => rfl
        | some j =>
          dsimp only
          rw [if_neg]
          intro hrj
          simp only [List.filterMap_cons, hvid, List.nodup_cons] at hnd
          exact hnd.1 (List.mem_filterMap.mpr ⟨u, hu2, by rw [hui, ← hri, hrj]⟩)
      rw [hv]
      exact ih hnd2 u hu2 hui r hri

theorem updOne_id (rid : Nat) (u : Event) (r : EventRow) : (updOne rid u r).id = r.id := by
  unfold updOne
  cases u.id with
  | none => rfl
  | some i =>
    dsimp only
    split <;> rfl

theorem filter_isNone_of_filter_ne (evs : List Event) (i : Nat) :
    (evs.filter (fun e => decide (¬ e.id = some i))).filter (fun e => e.id.isNone) =
      evs.filter (fun e => e.id.isNone) := by
  rw [List.filter_filter]
  apply List.filter_congr
  intro e _
  cases e.id <;> simp

theorem filter_comm_ne (evs : List Event) (i : Nat) :
    (evs.filter (fun e => decide (¬ e.id = some i))).filter (fun e => e.id.isSome) =
      (evs.filter (fun e => e.id.isSome)).filter (fun e => decide (¬ e.id = some i)) := by
  rw [List.filter_filter, List.filter_filter]
  apply List.filter_congr
  intro e _
  rw [Bool.and_comm]

theorem foldl_updOne_filter_ne (rid i : Nat) (ups : List Event) :
    ∀ r : EventRow, r.id ≠ i →
    List.foldl (fun acc ev => updOne rid ev acc)
        r (ups.filter (fun e => decide (¬ e.id = some i))) =
      List.foldl (fun acc ev => updOne rid ev acc) r ups := by
  induction ups with
  | nil => intro r _; rfl
  | cons u us ih =>
    intro r hri
    by_cases hu : u.id = some i
    · rw [List.filter_cons_of_neg (by simp [hu])]
      rw [List.foldl_cons]
      have h1 : updOne rid u r = r := by
        unfold updOne
        rw [hu]
        dsimp only
        rw [if_neg hri]
      rw [h1]
      exact ih r hri
    · rw [List.filter_cons_of_pos (by simp [hu]), List.foldl_cons, List.foldl_cons]
      exact ih (updOne rid u r) (by rw [updOne_id]; exact hri)

/-- C9: insert_many with an event whose pre-assigned identifier matches
no stored row raises no error and silently drops that event — the
resulting events table equals the one produced without those events,
and the table still grows by exactly the number of id-less events. -/
theorem insert_many_unknown_id_dropped (db : DB) (b : String) (evs : List Event)
    (i : Nat) (rid : Nat)
    (hres : (bucket_rowid db b).2 = .ok rid)
    (hno : ∀ r ∈ db.events, r.id ≠ i)
    (hcarry : some i ∈ evs.map (fun e => e.id)) :
    (insert_many db b evs).2 = .ok () ∧
    (insert_many db b evs).1.events =
      (insert_many db b (evs.filter (fun e => decide (¬ e.id = some i)))).1.events ∧
    (insert_many db b evs).1.events.length =
      db.events.length + (evs.filter (fun e => e.id.isNone)).length := by
  have hne : evs.isEmpty = false := by
    cases evs with
    | nil => simp at hcarry
    | cons x xs => rfl
  have hevs : (bucket_rowid db b).1.events = db.events := (bucket_rowid_preserves db b).1
  have hkey : (insertManyResult (bucket_rowid db b).1 rid evs).events =
      ((bucket_rowid db b).1.events.map (fun r =>
        ((evs.filter (fun e => decide (¬ e.id = some i))).filter
            (fun e => e.id.isSome)).foldl (fun acc ev => updOne rid ev acc) r))
      ++ mkRows rid (bucket_rowid db b).1.nextEventId
        ((evs.filter (fun e => decide (¬ e.id = some i))).filter
          (fun e => e.id.isNone)) := by
    unfold insertManyResult
    dsimp only
    rw [filter_isNone_of_filter_ne]
    congr 1
    apply List.map_congr_left
    intro r hr
    rw [hevs] at hr
    rw [filter_comm_ne]
    exact (foldl_updOne_filter_ne rid i (evs.filter (fun e => e.id.isSome)) r
      (hno r hr)).symm
  refine ⟨?_, ?_, ?_⟩
  · rw [insert_many_ok db b evs rid hne hres]
  · rw [insert_many_ok db b evs rid hne hres]
    dsimp only
    rw [hkey]
    by_cases hne2 : (evs.filter (fun e => decide (¬ e.id = some i))) = []
    · rw [hne2]
      show (bucket_rowid db b).1.events.map (fun r => r) ++ [] = _
      rw [List.append_nil, List.map_id', hevs]
      rfl
    · have hne2a : (evs.filter (fun e => decide (¬ e.id = some i))).isEmpty = false := by
        cases h : evs.filter (fun e => decide (¬ e.id = some i)) with
        | nil => exact absurd h hne2
        | cons x xs => rfl
      rw [insert_many_ok db b _ rid hne2a hres]
      dsimp only
      unfold insertManyResult
      dsimp only
  · rw [insert_many_ok db b evs rid hne hres]
    dsimp only
    unfold insertManyResult
    dsimp only
    rw [List.length_append, List.length_map, mkRows_length, hevs]

theorem insert_many_unknown_id_dropped_witness :
    (bucket_rowid dbW ("b1")).2 = .ok 1 ∧
    ((insert_many dbW ("b1")
        [⟨some 5, ⟨50, 0⟩, ⟨5⟩, Json.obj []⟩, ⟨none, ⟨60, 0⟩, ⟨5⟩, Json.obj []⟩]).2 =
      .ok () ∧
     (insert_many dbW ("b1")
        [⟨some 5, ⟨50, 0⟩, ⟨5⟩, Json.obj []⟩, ⟨none, ⟨60, 0⟩, ⟨5⟩, Json.obj []⟩]).1.events =
      (insert_many dbW ("b1")
        (([⟨some 5, ⟨50, 0⟩, ⟨5⟩, Json.obj []⟩,
          ⟨none, ⟨60, 0⟩, ⟨5⟩, Json.obj []⟩] : List Event).filter
            (fun e => decide (¬ e.id = some 5)))).1.events ∧
     (insert_many dbW ("b1")
        [⟨some 5, ⟨50, 0⟩, ⟨5⟩, Json.obj []⟩, ⟨none, ⟨60, 0⟩, ⟨5⟩, Json.obj []⟩]).1.events.length =
      dbW.events.length +
        (([⟨some 5, ⟨50, 0⟩, ⟨5⟩, Json.obj []⟩,
          ⟨none, ⟨60, 0⟩, ⟨5⟩, Json.obj []⟩] : List Event).filter
            (fun e => Option.isNone e.id)).length) :=
  ⟨rfl, insert_many_unknown_id_dropped dbW ("b1")
    [⟨some 5, ⟨50, 0⟩, ⟨5⟩, Json.obj []⟩, ⟨none, ⟨60, 0⟩, ⟨5⟩, Json.obj []⟩] 5 1
    rfl (by decide) (by decide)⟩

/-- Membership filter of an unbounded get_eventcount: rows of the
bucket whose endtime is at least 0 and starttime at most the maximum
timestamp (the default window). -/
def countPred (rid : Nat) (r : EventRow) : Bool :=
  decide (r.bucketrow = rid ∧ startBoundUs none ≤ r.endtime ∧ r.starttime ≤ endBoundUs none)

theorem get_eventcount_ok (db2 : DB) (b : String) (rid : Nat)
    (hres2 : (bucket_rowid db2 b).2 = .ok rid) :
    (get_eventcount db2 b none none).2 =
      .ok ((db2.events.filter (countPred rid)).length) := by
  rcases hbr : bucket_rowid db2 b with ⟨db1, res⟩
  have hok : res = .ok rid := by rw [hbr] at hres2; exact hres2
  subst hok
  have hev : db1.events = db2.events := by
    have h := (bucket_rowid_preserves db2 b).1
    rw [hbr] at h
    exact h
  unfold get_eventcount
  rw [hbr]
  dsimp only
  rw [hev]
  rfl

theorem length_filter_map_congr {α : Type} (p : α → Bool) (f : α → α) (l : List α)
    (h : ∀ a ∈ l, p (f a) = p a) : ((l.map f).filter p).length = (l.filter p).length := by
  induction l with
  | nil => rfl
  | cons x xs ih =>
    rw [List.map_cons]
    have htl := ih (fun a ha => h a (List.mem_cons_of_mem _ ha))
    by_cases hx : p x = true
    · rw [List.filter_cons_of_pos (by rw [h x (List.mem_cons_self x xs)]; exact hx),
        List.filter_cons_of_pos hx, List.length_cons, List.length_cons, htl]
    · rw [List.filter_cons_of_neg (by rw [h x (List.mem_cons_self x xs)]; exact hx),
        List.filter_cons_of_neg hx, htl]

theorem length_filter_mkRows (rid : Nat) (l : List Event) :
    (∀ ev ∈ l, 0 ≤ eventEndUs ev ∧ eventStartUs ev ≤ MAX_TIMESTAMP) →
    ∀ nid, ((mkRows rid nid l).filter (countPred rid)).length = l.length := by
  induction l with
  | nil => intro _ _; rfl
  | cons x xs ih =>
    intro h nid
    unfold mkRows
    rw [List.filter_cons_of_pos]
    · rw [List.length_cons, List.length_cons,
        ih (fun e he => h e (List.mem_cons_of_mem _ he)) (nid + 1)]
    · exact decide_eq_true
        ⟨rfl, (h x (List.mem_cons_self x xs)).1, (h x (List.mem_cons_self x xs)).2⟩

theorem mkRows_mem (rid : Nat) (l : List Event) :
    ∀ ev ∈ l, ∀ nid,
    ∃ r ∈ mkRows rid nid l, r.bucketrow = rid ∧ r.starttime = eventStartUs ev ∧
      r.endtime = eventEndUs ev ∧ r.datastr = json_dumps ev.data ∧ nid ≤ r.id := by
  induction l with
  | nil =>
    intro ev h
    cases h
  | cons x xs ih =>
    intro ev hev nid
    rcases List.mem_cons.mp hev with rfl | h2
    · exact ⟨⟨nid, rid, eventStartUs ev, eventEndUs ev, json_dumps ev.data⟩,
        List.mem_cons_self _ _, rfl, rfl, rfl, rfl, Nat.le_refl nid⟩
    · obtain ⟨r, hrmem, hp1, hp2, hp3, hp4, hp5⟩ := ih ev h2 (nid + 1)
      exact ⟨r, List.mem_cons_of_mem _ hrmem, hp1, hp2, hp3, hp4,
        Nat.le_trans (Nat.le_succ nid) hp5⟩

theorem bucket_rowid_hit (db2 : DB) (b : String) (rid : Nat)
    (h : lookupAssoc db2.bucketCache b = some rid) :
    bucket_rowid db2 b = (db2, .ok rid) := by
  unfold bucket_rowid
  rw [h]

/-- C2 (amended): on an existing bucket, insert_many replaces in a
first pass the full row (bucket reference, start, end, payload) of each
event carrying a pre-assigned identifier — provided such a row exists
and the rows bearing those identifiers belong to the target bucket —
bulk-inserts the id-less events as fresh rows in a second pass, is a
no-op on an empty list, and (for in-range timestamps) raises the
event count of the bucket by exactly the number of id-less events.  Without
the provision the count clause fails: an identifier living in another
bucket is moved in, see the counterexample. -/
theorem insert_many_upsert (db : DB) (b : String) (evs : List Event) (rid : Nat)
    (hres : (bucket_rowid db b).2 = .ok rid)
    (hnd : (evs.filterMap (fun e => e.id)).Nodup)
    (hmatch : ∀ ev ∈ evs, ∀ i, ev.id = some i → ∃ r ∈ db.events, r.id = i)
    (hbucket : ∀ ev ∈ evs, ∀ i, ev.id = some i → ∀ r ∈ db.events, r.id = i →
      r.bucketrow = rid)
    (hsane : ∀ r ∈ db.events, 0 ≤ r.endtime ∧ r.starttime ≤ MAX_TIMESTAMP)
    (hrange : ∀ ev ∈ evs, 0 ≤ eventStartUs ev ∧ 0 ≤ ev.duration.us ∧
      eventEndUs ev ≤ MAX_TIMESTAMP) :
    (insert_many db b evs).2 = .ok () ∧
    (evs = [] → (insert_many db b evs).1 = db) ∧
    (∀ ev ∈ evs, ∀ i, ev.id = some i →
      ∃ r2 ∈ (insert_many db b evs).1.events,
        r2.id = i ∧ r2.bucketrow = rid ∧ r2.starttime = eventStartUs ev ∧
        r2.endtime = eventEndUs ev ∧ r2.datastr = json_dumps ev.data) ∧
    (∀ ev ∈ evs, ev.id = none →
      ∃ r2 ∈ (insert_many db b evs).1.events,
        r2.bucketrow = rid ∧ r2.starttime = eventStartUs ev ∧
        r2.endtime = eventEndUs ev ∧ r2.datastr = json_dumps ev.data ∧
        db.nextEventId ≤ r2.id) ∧
    ((insert_many db b evs).1.events.length =
      db.events.length + (evs.filter (fun e => e.id.isNone)).length) ∧
    (∀ n, (get_eventcount db b none none).2 = .ok n →
      (get_eventcount (insert_many db b evs).1 b none none).2 =
        .ok (n + (evs.filter (fun e => e.id.isNone)).length)) := by
  by_cases hE : evs.isEmpty = true
  · have hnil : evs = [] := List.isEmpty_iff.mp hE
    subst hnil
    refine ⟨rfl, fun _ => rfl, ?_, ?_, rfl, ?_⟩
    · intro ev hev
      cases hev
    · intro ev hev
      cases hev
    · intro n hn
      simpa using hn
  · have hE' : evs.isEmpty = false := by
      cases h : evs.isEmpty with
      | false => rfl
      | true => exact absurd h hE
    have hIM := insert_many_ok db b evs rid hE' hres
    have hevs : (bucket_rowid db b).1.events = db.events := (bucket_rowid_preserves db b).1
    have hnid : (bucket_rowid db b).1.nextEventId = db.nextEventId :=
      (bucket_rowid_preserves db b).2.2.1
    have hnd2 : ((evs.filter (fun e => e.id.isSome)).filterMap (fun e => e.id)).Nodup :=
      List.Nodup.sublist ((List.filter_sublist evs).filterMap (fun e => e.id)) hnd
    refine ⟨?_, ?_, ?_, ?_, ?_, ?_⟩
    · rw [hIM]
    · intro hnil
      rw [hnil] at hE
      exact absurd rfl hE
    · intro ev hev i hi
      obtain ⟨r, hr, hrid⟩ := hmatch ev hev i hi
      have hups : ev ∈ evs.filter (fun e => e.id.isSome) :=
        List.mem_filter.mpr ⟨hev, by rw [hi]; rfl⟩
      have hfold := foldl_updOne_target rid i (evs.filter (fun e => e.id.isSome))
        hnd2 ev hups hi r hrid
      rw [hIM]
      dsimp only
      unfold insertManyResult
      dsimp only
      refine ⟨⟨r.id, rid, eventStartUs ev, eventEndUs ev, json_dumps ev.data⟩,
        List.mem_append_left _ ?_, hrid, rfl, rfl, rfl, rfl⟩
      rw [← hfold]
      refine List.mem_map.mpr ⟨r, ?_, rfl⟩
      rw [hevs]
      exact hr
    · intro ev hev hidnone
      have htin : ev ∈ evs.filter (fun e => e.id.isNone) :=
        List.mem_filter.mpr ⟨hev, by rw [hidnone]; rfl⟩
      obtain ⟨r2, hr2mem, hp1, hp2, hp3, hp4, hp5⟩ :=
        mkRows_mem rid (evs.filter (fun e => e.id.isNone)) ev htin
          (bucket_rowid db b).1.nextEventId
      rw [hIM]
      dsimp only
      unfold insertManyResult
      dsimp only
      refine ⟨r2, List.mem_append_right _ hr2mem, hp1, hp2, hp3, hp4, ?_⟩
      rw [← hnid]
      exact hp5
    · rw [hIM]
      dsimp only
      unfold insertManyResult
      dsimp only
      rw [List.length_append, List.length_map, mkRows_length, hevs]
    · intro n hn
      have hpre := get_eventcount_ok db b rid hres
      rw [hn] at hpre
      have hlen : n = (db.events.filter (countPred rid)).length := Except.ok.inj hpre
      have hlook : lookupAssoc (insertManyResult (bucket_rowid db b).1 rid
          evs).bucketCache b = some rid := by
        show lookupAssoc (bucket_rowid db b).1.bucketCache b = some rid
        exact bucket_rowid_cache db b rid hres
      have hres3 : (bucket_rowid (insertManyResult (bucket_rowid db b).1 rid evs) b).2 =
          .ok rid := by
        rw [bucket_rowid_hit (insertManyResult (bucket_rowid db b).1 rid evs) b rid hlook]
      have hper : ∀ r ∈ (bucket_rowid db b).1.events,
          countPred rid ((evs.filter (fun e => e.id.isSome)).foldl
            (fun acc ev => updOne rid ev acc) r) = countPred rid r := by
        intro r hr
        rw [hevs] at hr
        by_cases hm : ∃ u ∈ evs.filter (fun e => e.id.isSome), u.id = some r.id
        · obtain ⟨u, hu, hui⟩ := hm
          have huev : u ∈ evs := (List.mem_filter.mp hu).1
          have hfold := foldl_updOne_target rid r.id (evs.filter (fun e => e.id.isSome))
            hnd2 u hu hui r rfl
          rw [hfold]
          have hb : r.bucketrow = rid := hbucket u huev r.id hui r hr rfl
          have hrg := hrange u huev
          have hs := hsane r hr
          have h1 : countPred rid
              ⟨r.id, rid, eventStartUs u, eventEndUs u, json_dumps u.data⟩ = true := by
            unfold countPred
            exact decide_eq_true ⟨rfl,
              show (0 : Int) ≤ eventEndUs u by
                unfold eventEndUs
                omega,
              show eventStartUs u ≤ MAX_TIMESTAMP by
                unfold eventEndUs at hrg
                omega⟩
          have h2 : countPred rid r = true := by
            unfold countPred
            exact decide_eq_true ⟨hb, hs.1, hs.2⟩
          rw [h1, h2]
        · have hfold := foldl_updOne_skip rid (evs.filter (fun e => e.id.isSome)) r
            (fun w hw j hwj hji => hm ⟨w, hw, by rw [hwj, hji]⟩)
          rw [hfold]
      have hpost := get_eventcount_ok (insertManyResult (bucket_rowid db b).1 rid evs)
        b rid hres3
      rw [hIM]
      dsimp only
      rw [hpost]
      have hcnt : ((insertManyResult (bucket_rowid db b).1 rid evs).events.filter
          (countPred rid)).length =
          (db.events.filter (countPred rid)).length +
            (evs.filter (fun e => e.id.isNone)).length := by
        show ((((bucket_rowid db b).1.events.map (fun r =>
            (evs.filter (fun e => e.id.isSome)).foldl (fun acc ev => updOne rid ev acc) r))
          ++ mkRows rid (bucket_rowid db b).1.nextEventId
            (evs.filter (fun e => e.id.isNone))).filter (countPred rid)).length = _
        rw [List.filter_append, List.length_append]
        rw [length_filter_map_congr (countPred rid) _ _ hper]
        rw [hevs]
        rw [length_filter_mkRows rid (evs.filter (fun e => e.id.isNone))
          (fun ev hev => by
            have h2 := hrange ev (List.mem_filter.mp hev).1
            unfold eventEndUs at h2 ⊢
            exact ⟨by omega, by omega⟩)
          (bucket_rowid db b).1.nextEventId]
      rw [hcnt, hlen]

/-- Two buckets, both cached; the only stored event belongs to b2. -/
def dbTwo : DB :=
  { buckets := [⟨1, "b1", none, "t", "c", "h", "cr", "\x7b\x7d"⟩,
                ⟨2, "b2", none, "t", "c", "h", "cr", "\x7b\x7d"⟩],
    events := [⟨1, 2, 0, 5, "\x7b\x7d"⟩],
    nextBucketRowid := 3, nextEventId := 2,
    bucketCache := [("b1", 1), ("b2", 2)] }

/-- C2 as stated is false at this input: insert_many on b1 with one
identified event (id 1, stored in b2) and no unidentified events
succeeds, yet the count of b1 rises from 0 to 1 — not by the number of
unidentified events (zero) — because the UPDATE rewrites the row's
bucket reference. -/
theorem insert_many_cross_bucket_count :
    (get_eventcount dbTwo ("b1") none none).2 = .ok 0 ∧
    (insert_many dbTwo ("b1") [⟨some 1, ⟨0, 0⟩, ⟨5⟩, Json.obj []⟩]).2 = .ok () ∧
    (get_eventcount (insert_many dbTwo ("b1") [⟨some 1, ⟨0, 0⟩, ⟨5⟩, Json.obj []⟩]).1
      ("b1") none none).2 = .ok 1 ∧
    (([⟨some 1, ⟨0, 0⟩, ⟨5⟩, Json.obj []⟩] : List Event).filter
      (fun e => Option.isNone e.id)).length = 0 :=
  ⟨rfl, rfl, rfl, rfl⟩

/-- Concrete mixed batch: one identified event, one id-less event. -/
def evsW : List Event :=
  [⟨some 1, ⟨100, 0⟩, ⟨5⟩, Json.obj []⟩, ⟨none, ⟨200, 0⟩, ⟨5⟩, Json.null⟩]

theorem insert_many_upsert_witness :
    (bucket_rowid dbW ("b1")).2 = .ok 1 ∧
    ((insert_many dbW ("b1") evsW).2 = .ok () ∧
     (evsW = [] → (insert_many dbW ("b1") evsW).1 = dbW) ∧
     (∀ ev ∈ evsW, ∀ i, ev.id = some i →
       ∃ r2 ∈ (insert_many dbW ("b1") evsW).1.events,
         r2.id = i ∧ r2.bucketrow = 1 ∧ r2.starttime = eventStartUs ev ∧
         r2.endtime = eventEndUs ev ∧ r2.datastr = json_dumps ev.data) ∧
     (∀ ev ∈ evsW, ev.id = none →
       ∃ r2 ∈ (insert_many dbW ("b1") evsW).1.events,
         r2.bucketrow = 1 ∧ r2.starttime = eventStartUs ev ∧
         r2.endtime = eventEndUs ev ∧ r2.datastr = json_dumps ev.data ∧
         dbW.nextEventId ≤ r2.id) ∧
     ((insert_many dbW ("b1") evsW).1.events.length =
       dbW.events.length + (evsW.filter (fun e => e.id.isNone)).length) ∧
     (∀ n, (get_eventcount dbW ("b1") none none).2 = .ok n →
       (get_eventcount (insert_many dbW ("b1") evsW).1 ("b1") none none).2 =
         .ok (n + (evsW.filter (fun e => e.id.isNone)).length))) :=
  ⟨rfl, insert_many_upsert dbW ("b1") evsW 1 rfl (by decide)
    (by
      intro ev hev i hi
      rcases List.mem_cons.mp hev with rfl | hev2
      · cases hi
        exact ⟨⟨1, 1, 0, 10, "\x7b\x7d"⟩, by decide, rfl⟩
      · rcases List.mem_cons.mp hev2 with rfl | hev3
        · cases hi
        · cases hev3)
    (by
      intro ev hev i hi r hr hrid
      rcases List.mem_cons.mp hr with rfl | h
      · rfl
      · cases h)
    (by decide) (by decide)⟩

theorem mem_limitRows (lim : Int) (l : List EventRow) (r : EventRow)
    (h : r ∈ limitRows lim l) : r ∈ l := by
  unfold limitRows at h
  split at h
  · exact List.mem_of_mem_take h
  · exact h

/-- Single-bucket store (rowid 1, cached) holding one event `[t0, t3]`. -/
def clipDb (t0 t3 : Int) : DB :=
  { buckets := [⟨1, "b1", none, "t", "c", "h", "cr", "\x7b\x7d"⟩],
    events := [⟨1, 1, t0, t3, "\x7b\x7d"⟩],
    nextBucketRowid := 2, nextEventId := 2, bucketCache := [("b1", 1)] }

/-- C1: every event returned by get_events stems from a stored row of
the bucket overlapping the queried window; its reported start is the
stored start pushed up to an explicitly supplied start bound (the
bound itself, end preserved, when the stored start precedes it), its
reported end is the stored end cut down to an explicitly supplied end
bound, and with neither bound supplied the stored interval comes back
unclipped; in particular a stored event `[t0, t3]` queried through a
window `[t1, t2]` with `t0 < t1 < t2 < t3` is reported as start `t1`,
end `t2`. -/
theorem get_events_clipping :
    (∀ (db : DB) (b : String) (lim : Int) (st et : Option DateTime) (rid : Nat)
        (evsR : List Event),
      (bucket_rowid db b).2 = .ok rid →
      (get_events db b lim st et).2 = .ok evsR →
      ∀ ev ∈ evsR, ∃ r ∈ db.events,
        (r.bucketrow = rid ∧ startBoundUs st ≤ r.endtime ∧ r.starttime ≤ endBoundUs et) ∧
        ev.timestamp.us =
          (match st with | some s => max r.starttime s.us | none => r.starttime) ∧
        (dtAdd ev.timestamp ev.duration).us =
          (match et with | some e => min r.endtime e.us | none => r.endtime) ∧
        (∀ s, st = some s → r.starttime < s.us → ev.timestamp = s)) ∧
    (∀ (t0 t1 t2 t3 o1 o2 : Int), t0 < t1 → t1 < t2 → t2 < t3 →
      (get_events (clipDb t0 t3) ("b1") (-1) (some ⟨t1, o1⟩) (some ⟨t2, o2⟩)).2 =
        .ok [{ id := some 1, timestamp := ⟨t1, o1⟩, duration := ⟨t2 - t1⟩,
               data := Json.obj [] }]) := by
  constructor
  · intro db b lim st et rid evsR hres hok ev hev
    rcases hbr : bucket_rowid db b with ⟨db1, res⟩
    have hres2 : res = .ok rid := by rw [hbr] at hres; exact hres
    subst hres2
    have hevs : db1.events = db.events := by
      have h := (bucket_rowid_preserves db b).1
      rw [hbr] at h
      exact h
    unfold get_events at hok
    rw [hbr] at hok
    dsimp only at hok
    by_cases hl : lim = 0
    · rw [if_pos hl] at hok
      dsimp only at hok
      have hnil : ([] : List Event) = evsR := Except.ok.inj hok
      rw [← hnil] at hev
      cases hev
    · rw [if_neg hl] at hok
      cases hre : rowsToEvents (limitRows lim (sortByEndDesc
          (selectRows db1 rid (startBoundUs st) (endBoundUs et)))) with
      | none =>
        rw [hre] at hok
        exact absurd hok (by simp)
      | some evs =>
        rw [hre] at hok
        dsimp only at hok
        have hok2 : (if st.isSome || et.isSome then evs.map (clipEvent st et) else evs)
            = evsR := Except.ok.inj hok
        have hevsR : evsR = evs.map (clipEvent st et) := by
          rw [← hok2]
          cases hb2 : st.isSome || et.isSome with
          | true => rw [if_pos rfl]
          | false =>
            simp only [Bool.false_eq_true, if_false]
            have hst : st = none := by
              cases st with
              | none => rfl
              | some s => simp at hb2
            have het : et = none := by
              cases et with
              | none => rfl
              | some e => rw [Bool.or_comm] at hb2; simp at hb2
            subst hst
            subst het
            have hmapid : evs.map (clipEvent none none) = evs := by
              rw [List.map_congr_left (fun e (_ : e ∈ evs) => clipEvent_none_none e),
                List.map_id']
            rw [hmapid]
        rw [hevsR] at hev
        obtain ⟨e0, he0, rfl⟩ := List.mem_map.mp hev
        obtain ⟨r, hrlim, hre0⟩ := rowsToEvents_mem _ _ hre e0 he0
        have hrsel : r ∈ selectRows db1 rid (startBoundUs st) (endBoundUs et) :=
          (mem_sortByEndDesc r _).mp (mem_limitRows lim _ r hrlim)
        unfold selectRows at hrsel
        have hrdb : r ∈ db1.events := (List.mem_filter.mp hrsel).1
        have hP2 : r.bucketrow = rid ∧ startBoundUs st ≤ r.endtime ∧
            r.starttime ≤ endBoundUs et :=
          of_decide_eq_true (List.mem_filter.mp hrsel).2
        obtain ⟨hts, hdur, _⟩ := rowToEvent_fields r e0 hre0
        have hstart : e0.timestamp.us = r.starttime := by rw [hts]
        have hend : (dtAdd e0.timestamp e0.duration).us = r.endtime := by
          rw [hts, hdur]
          show r.starttime + (r.endtime - r.starttime) = r.endtime
          omega
        obtain ⟨hc1, hc2, hc3⟩ := clipEvent_spec st et e0
        rw [hstart] at hc1
        rw [hend] at hc2
        refine ⟨r, ?_, hP2, hc1, hc2, ?_⟩
        · rw [← hevs]
          exact hrdb
        · intro s hs hlt
          exact hc3 s hs (by rw [hstart]; exact hlt)
  · intro t0 t1 t2 t3 o1 o2 h01 h12 h23
    have hbr : bucket_rowid (clipDb t0 t3) ("b1") = (clipDb t0 t3, .ok 1) :=
      bucket_rowid_hit _ _ _ rfl
    unfold get_events
    rw [hbr]
    dsimp only
    rw [if_neg (by decide : ¬ (-1 : Int) = 0)]
    have hsel : selectRows (clipDb t0 t3) 1 (startBoundUs (some ⟨t1, o1⟩))
        (endBoundUs (some ⟨t2, o2⟩)) = [⟨1, 1, t0, t3, "\x7b\x7d"⟩] := by
      unfold selectRows clipDb
      dsimp only
      rw [List.filter_cons_of_pos]
      · rfl
      · exact decide_eq_true ⟨rfl, show t1 ≤ t3 by omega, show t0 ≤ t2 by omega⟩
    rw [hsel]
    rw [show rowsToEvents (limitRows (-1)
        (sortByEndDesc [(⟨1, 1, t0, t3, "\x7b\x7d"⟩ : EventRow)]))
        = some [⟨some 1, ⟨t0, 0⟩, ⟨t3 - t0⟩, Json.obj []⟩] from rfl]
    dsimp only
    have hclip : clipEvent (some ⟨t1, o1⟩) (some ⟨t2, o2⟩)
        (⟨some 1, ⟨t0, 0⟩, ⟨t3 - t0⟩, Json.obj []⟩ : Event) =
        ⟨some 1, ⟨t1, o1⟩, ⟨t2 - t1⟩, Json.obj []⟩ := by
      unfold clipEvent
      dsimp only [dtAdd, dtSub]
      rw [if_pos h01]
      dsimp only
      rw [if_pos (show t2 < t1 + (t0 + (t3 - t0) - t1) by omega)]
    rw [show ([(⟨some 1, ⟨t0, 0⟩, ⟨t3 - t0⟩, Json.obj []⟩ : Event)].map
        (clipEvent (some ⟨t1, o1⟩) (some ⟨t2, o2⟩)))
        = [clipEvent (some ⟨t1, o1⟩) (some ⟨t2, o2⟩)
            ⟨some 1, ⟨t0, 0⟩, ⟨t3 - t0⟩, Json.obj []⟩] from rfl]
    rw [hclip]
    rfl

theorem get_events_clipping_witness :
    (0 : Int) < 10 ∧ (10 : Int) < 20 ∧ (20 : Int) < 30 ∧
    (get_events (clipDb 0 30) ("b1") (-1) (some ⟨10, 0⟩) (some ⟨20, 0⟩)).2 =
      .ok [{ id := some 1, timestamp := ⟨10, 0⟩, duration := ⟨10⟩,
             data := Json.obj [] }] :=
  ⟨by decide, by decide, by decide,
   get_events_clipping.2 0 10 20 30 0 0 (by decide) (by decide) (by decide)⟩
